import Mathlib

set_option maxRecDepth 100000

/- Verification of the analytics engine of `src/app2.py` (a pandas/streamlit
stock-analysis dashboard).  The pandas DataFrame of observations is embedded
as a list of typed records; the floating-point values flowing through the
code are embedded as exact extended rationals `XR` (finite rational, `+inf`,
`-inf`, `nan`) with IEEE-754 style arithmetic on the operations the code
performs (numpy float semantics: division by zero yields a signed infinity,
`0/0` yields `nan`, `nan` propagates).

Two of the code's derived quantities involve a square root (`std` and the
Pearson correlation denominator), which is irrational over `ℚ`.  They are
embedded through the strictly monotone bijections `x ↦ x²` (on `[0, ∞)`,
for the standard deviation) and `x ↦ x·|x|` (for the correlation value):
these encodings are exact over `ℚ` and preserve order, zero-ness, one-ness
and nan-ness, so every claim proved here about the encoded value transfers
to the code's value. -/

/-- Extended rational: models the IEEE-754 double values pandas computes
with (exact finite rationals plus the two infinities and nan). -/
inductive XR where
  | num (q : ℚ)
  | pinf
  | ninf
  | nan
deriving DecidableEq, Repr

/-- nan test. -/
def XR.isNan : XR → Bool
  | .nan => true
  | _ => false

/-- IEEE-style addition. -/
def XR.add : XR → XR → XR
  | .nan, _ => .nan
  | _, .nan => .nan
  | .pinf, .ninf => .nan
  | .ninf, .pinf => .nan
  | .pinf, _ => .pinf
  | _, .pinf => .pinf
  | .ninf, _ => .ninf
  | _, .ninf => .ninf
  | .num a, .num b => .num (a + b)

/-- IEEE-style subtraction. -/
def XR.sub : XR → XR → XR
  | .nan, _ => .nan
  | _, .nan => .nan
  | .pinf, .pinf => .nan
  | .ninf, .ninf => .nan
  | .pinf, _ => .pinf
  | _, .pinf => .ninf
  | .ninf, _ => .ninf
  | _, .ninf => .pinf
  | .num a, .num b => .num (a - b)

/-- IEEE-style multiplication (`inf * 0 = nan`). -/
def XR.mul : XR → XR → XR
  | .nan, _ => .nan
  | _, .nan => .nan
  | .pinf, .pinf => .pinf
  | .pinf, .ninf => .ninf
  | .ninf, .pinf => .ninf
  | .ninf, .ninf => .pinf
  | .pinf, .num b => if 0 < b then .pinf else if b < 0 then .ninf else .nan
  | .num a, .pinf => if 0 < a then .pinf else if a < 0 then .ninf else .nan
  | .ninf, .num b => if 0 < b then .ninf else if b < 0 then .pinf else .nan
  | .num a, .ninf => if 0 < a then .ninf else if a < 0 then .pinf else .nan
  | .num a, .num b => .num (a * b)

/-- IEEE-style division: a nonzero finite numerator over zero gives a signed
infinity, `0/0` gives `nan` (numpy float64 semantics; signed zero is not
modelled because `ℚ` has a single zero and the data never produces `-0.0`). -/
def XR.div : XR → XR → XR
  | .nan, _ => .nan
  | _, .nan => .nan
  | .pinf, .pinf => .nan
  | .pinf, .ninf => .nan
  | .ninf, .pinf => .nan
  | .ninf, .ninf => .nan
  | .pinf, .num b => if 0 ≤ b then .pinf else .ninf
  | .ninf, .num b => if 0 ≤ b then .ninf else .pinf
  | .num _, .pinf => .num 0
  | .num _, .ninf => .num 0
  | .num a, .num b =>
    if b = 0 then (if 0 < a then .pinf else if a < 0 then .ninf else .nan)
    else .num (a / b)

/-- Sum of a list of extended rationals (left-to-right pandas reduction). -/
def XR.sumL (l : List XR) : XR := l.foldr XR.add (.num 0)

/-- Comparison used by `sort_values(..., ascending=False)`: `descLE a b`
says `a` may appear no later than `b` in the descending output.  pandas
places `nan` last (`na_position='last'`); `+inf` compares above every
finite value and `-inf` below. -/
def XR.descLE : XR → XR → Bool
  | _, .nan => true
  | .nan, _ => false
  | .pinf, _ => true
  | _, .pinf => false
  | .num a, .num b => decide (b ≤ a)
  | .num _, .ninf => true
  | .ninf, .num _ => false
  | .ninf, .ninf => true

/-- The finite values of a list of `XR`, in order (used to state the
ranking claims "over the rows whose metric is a defined number"). -/
def numsOf (l : List XR) : List ℚ :=
  l.filterMap fun x => match x with
    | .num q => some q
    | _ => none

/-- Calendar date (the `Date` column after `pd.to_datetime`). -/
structure Date where
  y : Nat
  m : Nat
  d : Nat
deriving DecidableEq, Repr

/-- Ascending comparison on dates, as pandas orders datetimes. -/
def Date.leB (a b : Date) : Bool :=
  decide (a.y < b.y) ||
    (a.y == b.y && (decide (a.m < b.m) || (a.m == b.m && decide (a.d ≤ b.d))))

/-- One row of the Time-Series Table: an Observation record. -/
structure Obs where
  symbol : String
  date : Date
  close : ℚ
  volume : ℚ
deriving DecidableEq, Repr

/-- The caller's DataFrame: its observation rows plus a flag recording
whether the derived `Month` column is present (the only column any
calculator ever adds; its values are a pure function of `Date`, so the
flag captures the full column state relevant to the mutation claim). -/
structure Table where
  rows : List Obs
  hasMonth : Bool
deriving DecidableEq, Repr

instance {ε α : Type} [DecidableEq ε] [DecidableEq α] :
    DecidableEq (Except ε α) := fun a b =>
  match a, b with
  | .ok x, .ok y =>
    if h : x = y then .isTrue (h ▸ rfl) else .isFalse fun hc => h (Except.ok.inj hc)
  | .error x, .error y =>
    if h : x = y then .isTrue (h ▸ rfl) else .isFalse fun hc => h (Except.error.inj hc)
  | .ok _, .error _ => .isFalse fun hc => Except.noConfusion hc
  | .error _, .ok _ => .isFalse fun hc => Except.noConfusion hc

/-- Ascending lexicographic comparison on strings, matching pandas's
sorted group keys (`groupby(..., sort=True)`). -/
def strLeB (a b : String) : Bool := decide (a < b) || a == b

/-- Relation form of `strLeB` for `List.insertionSort`. -/
def strRel (a b : String) : Prop := strLeB a b = true

instance : DecidableRel strRel :=
  fun a b => inferInstanceAs (Decidable (strLeB a b = true))

/-- Relation form of `Date.leB` on observations (`sort_values("Date")`). -/
def obsDateRel (a b : Obs) : Prop := Date.leB a.date b.date = true

instance : DecidableRel obsDateRel :=
  fun a b => inferInstanceAs (Decidable (Date.leB a.date b.date = true))

/-- Relation form of `XR.descLE` pulled back along a key, for
`sort_values(key, ascending=False)`. -/
def descRel {α : Type} (key : α → XR) (x y : α) : Prop :=
  XR.descLE (key x) (key y) = true

instance {α : Type} (key : α → XR) : DecidableRel (descRel key) :=
  fun x y => inferInstanceAs (Decidable (XR.descLE (key x) (key y) = true))

instance {α : Type} (key : α → XR) : IsTotal α (descRel key) :=
  ⟨fun x y => by
    have h : ∀ a b : XR, XR.descLE a b = true ∨ XR.descLE b a = true := by
      intro a b
      cases a <;> cases b <;> simp [XR.descLE] <;> exact le_total _ _
    exact h (key x) (key y)⟩

instance {α : Type} (key : α → XR) : IsTrans α (descRel key) :=
  ⟨fun x y z hxy hyz => by
    have h : ∀ a b c : XR, XR.descLE a b = true → XR.descLE b c = true →
        XR.descLE a c = true := by
      intro a b c hab hbc
      cases a <;> cases b <;> cases c <;> simp_all [XR.descLE]
      exact le_trans hbc hab
    exact h (key x) (key y) (key z) hxy hyz⟩

/-- `data.sort_values("Date")`: sort observations by ascending date
(stable; within-symbol dates are unique in well-formed data, so stability
never matters there). -/
def sortByDate (l : List Obs) : List Obs := List.insertionSort obsDateRel l

/-- The distinct symbols of the table in ascending order: the group keys
produced by `df.groupby("Symbol")` (pandas sorts keys). -/
def symsSorted (df : List Obs) : List String :=
  List.insertionSort strRel (df.map (·.symbol)).dedup

/-- `df.groupby("Symbol")`: sorted distinct keys, each with its rows in
original order. -/
def groupBy (df : List Obs) : List (String × List Obs) :=
  (symsSorted df).map fun s => (s, df.filter fun o => o.symbol == s)

/-- `pd.DataFrame(rows).sort_values(col, ascending=False)`.  On an empty
row list `pd.DataFrame([])` has no columns at all, so `sort_values`
raises `KeyError: col`; embedded as an `Except.error`. -/
def sort_values_desc {α : Type} (col : String) (key : α → XR) (rows : List α) :
    Except String (List α) :=
  if rows.isEmpty then .error ("KeyError: " ++ col)
  else .ok (List.insertionSort (descRel key) rows)

/-- Close of `data.iloc[0]` (groups produced by `groupby` are never empty,
so the default value of the empty case is never reached). -/
def firstCloseQ : List Obs → ℚ
  | [] => 0
  | o :: _ => o.close

/-- Close of `data.iloc[-1]` (same remark about the empty case). -/
def lastCloseQ : List Obs → ℚ
  | [] => 0
  | [o] => o.close
  | _ :: o :: rest => lastCloseQ (o :: rest)

/-- `((end - start) / start) * 100` over the date-sorted rows of a group:
numpy float arithmetic on `Close` values. -/
def returnPct (data : List Obs) : XR :=
  XR.mul
    (XR.div (XR.sub (.num (lastCloseQ data)) (.num (firstCloseQ data)))
      (.num (firstCloseQ data)))
    (.num 100)

/-- Arithmetic mean of a list of rationals (`Series.mean()`; groups are
nonempty so the length is never zero where this is used). -/
def qMean (l : List ℚ) : ℚ := l.sum / (l.length : ℚ)

/-- One output row of `calculate_metrics`. -/
structure SymbolMetrics where
  symbol : String
  returnPct : XR
  avgPrice : ℚ
  avgVolume : ℚ
deriving DecidableEq, Repr

/-- The per-group body of the `calculate_metrics` loop. -/
def metricsRow (s : String) (g : List Obs) : SymbolMetrics :=
  let data := sortByDate g
  { symbol := s
    returnPct := returnPct data
    avgPrice := qMean (data.map (·.close))
    avgVolume := qMean (data.map (·.volume)) }

/-- `calculate_metrics` (src/app2.py lines 28-41). -/
def calculate_metrics (df : List Obs) : Except String (List SymbolMetrics) :=
  sort_values_desc "Return (%)" (fun r => r.returnPct)
    ((groupBy df).map fun g => metricsRow g.1 g.2)

/-- `Series.pct_change()`: leading `nan`, then `c_t / c_(t-1) - 1`. -/
def pctChange : List ℚ → List XR
  | [] => []
  | c :: rest =>
    .nan ::
      List.zipWith (fun p x => XR.sub (XR.div (.num x) (.num p)) (.num 1))
        (c :: rest) rest

/-- The day-over-day fractional change series in the spec's form
`r_t = (close_t - close_(t-1)) / close_(t-1)` (no leading `nan`). -/
def specDailyReturns (l : List ℚ) : List XR :=
  List.zipWith (fun p x => XR.div (XR.sub (.num x) (.num p)) (.num p)) l l.tail

/-- The unbiased (`ddof=1`) sample variance of a list of values already
stripped of nan entries: `nan` when fewer than two values remain,
otherwise the centered sum of squares over `n - 1`. -/
def sampleVarOf (valid : List XR) : XR :=
  if valid.length < 2 then .nan
  else
    XR.div
      (XR.sumL (valid.map fun x =>
        XR.mul (XR.sub x (XR.div (XR.sumL valid) (.num (valid.length : ℚ))))
          (XR.sub x (XR.div (XR.sumL valid) (.num (valid.length : ℚ))))))
      (.num ((valid.length - 1 : ℕ) : ℚ))

/-- `Series.std()` squared: pandas drops the nan entries (`skipna=True`)
and takes the unbiased sample variance of the rest.  The code's value is
the square root of this; `√` is a strictly monotone bijection of
`[0, ∞)` fixing `0` and sending `nan` to `nan`, so sortedness, zero-ness
and nan-ness of the code's value coincide with those of this value. -/
def sampleVarXR (l : List XR) : XR :=
  sampleVarOf (l.filter fun x => ! x.isNan)

/-- One output row of `calculate_volatility`; `volatilitySq` is the square
of the code's `Volatility` column (see `sampleVarXR`). -/
structure VolatilityMetric where
  symbol : String
  volatilitySq : XR
deriving DecidableEq, Repr

/-- The per-group body of the `calculate_volatility` loop. -/
def volRow (s : String) (g : List Obs) : VolatilityMetric :=
  { symbol := s
    volatilitySq := sampleVarXR (pctChange ((sortByDate g).map (·.close))) }

/-- `calculate_volatility` (src/app2.py lines 43-52). -/
def calculate_volatility (df : List Obs) : Except String (List VolatilityMetric) :=
  sort_values_desc "Volatility" (fun r => r.volatilitySq)
    ((groupBy df).map fun g => volRow g.1 g.2)

/-- `Series.cumprod()` with its default `skipna=True`: `nan` entries stay
`nan` and do not enter the running product. -/
def cumprodSkipna (acc : XR) : List XR → List XR
  | [] => []
  | x :: xs =>
    if x.isNan then .nan :: cumprodSkipna acc xs
    else XR.mul acc x :: cumprodSkipna (XR.mul acc x) xs

/-- One output row of `calculate_cumulative_returns`. -/
structure CumulativeReturnPoint where
  symbol : String
  date : Date
  close : ℚ
  volume : ℚ
  dailyReturn : XR
  cumulativeReturn : XR
deriving DecidableEq, Repr

/-- `calculate_cumulative_returns` (src/app2.py lines 54-59): filter to the
selected symbols, sort by (Symbol, Date), per-symbol `pct_change`, then
per-symbol `(1 + x).cumprod()`.  The sorted subset is exactly the
concatenation over the sorted present symbols of each symbol's
date-sorted rows. -/
def calculate_cumulative_returns (df : List Obs) (sel : List String) :
    List CumulativeReturnPoint :=
  let subset := df.filter fun o => sel.contains o.symbol
  ((groupBy subset).map fun g =>
    let data := sortByDate g.2
    let rets := pctChange (data.map (·.close))
    let cums := cumprodSkipna (.num 1) (rets.map fun r => XR.add (.num 1) r)
    List.zipWith
      (fun o rc =>
        { symbol := o.symbol
          date := o.date
          close := o.close
          volume := o.volume
          dailyReturn := rc.1
          cumulativeReturn := rc.2 : CumulativeReturnPoint })
      data (rets.zip cums)).flatten

/-- `df['Date'].dt.to_period('M')`: the calendar month `(year, month)` of a
date (the code renders it as the string "YYYY-MM"; the rendering is
injective so the pair is a faithful key). -/
def monthOf (d : Date) : Nat × Nat := (d.y, d.m)

/-- The `groupby(['Month', 'Symbol'])` key of an observation. -/
def monthKey (o : Obs) : (Nat × Nat) × String := (monthOf o.date, o.symbol)

/-- Ascending comparison on (month, symbol) group keys. -/
def mkeyLeB (a b : (Nat × Nat) × String) : Bool :=
  decide (a.1.1 < b.1.1) ||
    (a.1.1 == b.1.1 &&
      (decide (a.1.2 < b.1.2) || (a.1.2 == b.1.2 && strLeB a.2 b.2)))

/-- Relation form of `mkeyLeB`. -/
def mkeyRel (a b : (Nat × Nat) × String) : Prop := mkeyLeB a b = true

instance : DecidableRel mkeyRel :=
  fun a b => inferInstanceAs (Decidable (mkeyLeB a b = true))

/-- The sorted distinct `(Month, Symbol)` keys of the table. -/
def mkeys (rows : List Obs) : List ((Nat × Nat) × String) :=
  List.insertionSort mkeyRel (rows.map monthKey).dedup

/-- The rows of one `(Month, Symbol)` group. -/
def monthGroup (rows : List Obs) (k : (Nat × Nat) × String) : List Obs :=
  rows.filter fun o => monthKey o == k

/-- One output row of `calculate_monthly_performance`. -/
structure MonthlyPerformance where
  month : Nat × Nat
  symbol : String
  returnPct : XR
deriving DecidableEq, Repr

/-- `calculate_monthly_performance` (src/app2.py lines 61-68).  The first
component is the caller's table after the call: the statement
`df['Month'] = df['Date'].dt.to_period('M').astype(str)` adds a `Month`
column to the caller's DataFrame in place (rows are untouched).  The
second component is the returned monthly table: one row per distinct
`(Month, Symbol)` key, with `returnPct` computed by the same
first-to-last formula as `calculate_metrics`, scoped to the group. -/
def calculate_monthly_performance (t : Table) :
    Table × List MonthlyPerformance :=
  ({ rows := t.rows, hasMonth := true },
    (mkeys t.rows).map fun k =>
      { month := k.1
        symbol := k.2
        returnPct := returnPct (sortByDate (monthGroup t.rows k)) })

/-- Shorthand for the monthly table handed back to the caller. -/
def monthlyOut (t : Table) : List MonthlyPerformance :=
  (calculate_monthly_performance t).2

/-- The sorted distinct dates of the whole table: the row index of
`df.pivot(index="Date", columns="Symbol", values="Close")`. -/
def pivotDates (df : List Obs) : List Date :=
  List.insertionSort (fun a b => Date.leB a b = true) (df.map (·.date)).dedup

instance : DecidableRel (fun a b => Date.leB a b = true) :=
  fun a b => inferInstanceAs (Decidable (Date.leB a b = true))

/-- One cell of the pivot table: the close of symbol `s` on date `d`, or
`nan` when the symbol has no observation that day (`df.pivot` leaves the
cell NaN).  Well-formed data has at most one row per (symbol, date); on
duplicate keys `df.pivot` raises, while this embedding takes the first
matching row. -/
def pivotCell (df : List Obs) (d : Date) (s : String) : XR :=
  match df.find? fun o => o.date == d && o.symbol == s with
  | some o => .num o.close
  | none => .nan

/-- The pairwise-complete aligned close series of two symbols: for each
pivot row where both cells are defined, the pair of closes.  This is the
row set pandas `DataFrame.corr` uses for the pair. -/
def alignedPairs (df : List Obs) (i j : String) : List (ℚ × ℚ) :=
  (pivotDates df).filterMap fun d =>
    match pivotCell df d i, pivotCell df d j with
    | .num a, .num b => some (a, b)
    | _, _ => none

/-- Mean of the first components of the aligned pairs. -/
def meanFst (ps : List (ℚ × ℚ)) : ℚ := qMean (ps.map Prod.fst)

/-- Mean of the second components of the aligned pairs. -/
def meanSnd (ps : List (ℚ × ℚ)) : ℚ := qMean (ps.map Prod.snd)

/-- Centered sum of squares of the first components. -/
def sxxOf (ps : List (ℚ × ℚ)) : ℚ :=
  (ps.map fun p => (p.1 - meanFst ps) * (p.1 - meanFst ps)).sum

/-- Centered sum of squares of the second components. -/
def syyOf (ps : List (ℚ × ℚ)) : ℚ :=
  (ps.map fun p => (p.2 - meanSnd ps) * (p.2 - meanSnd ps)).sum

/-- Centered sum of products. -/
def sxyOf (ps : List (ℚ × ℚ)) : ℚ :=
  (ps.map fun p => (p.1 - meanFst ps) * (p.2 - meanSnd ps)).sum

/-- The Pearson statistic of an aligned pair list, encoded without the
square root: pandas computes `sxy / √(sxx·syy)` and yields `nan` when no
rows align or when the denominator is zero (zero variance, e.g. a
constant or single-observation column — pandas does NOT force the
diagonal to 1).  We embed the value's image under the strictly monotone
bijection `x ↦ x·|x|`, i.e. `sxy·|sxy| / (sxx·syy)`, exact over `ℚ`;
the encoding fixes `1`, preserves symmetry and sends `nan` to `nan`. -/
def corrStat (ps : List (ℚ × ℚ)) : XR :=
  if ps.length = 0 then .nan
  else if sxxOf ps * syyOf ps = 0 then .nan
  else .num (sxyOf ps * |sxyOf ps| / (sxxOf ps * syyOf ps))

/-- One cell of `pivot[top15].corr()` (src/app2.py lines 125-128). -/
def corrCell (df : List Obs) (i j : String) : XR :=
  corrStat (alignedPairs df i j)

/-- The correlation matrix over a selected symbol list, viewed as a
function of two symbol names (cells outside the selection are `nan`;
the code would raise on a selected symbol absent from the pivot columns,
a case its caller never produces since the selection is read off the
metrics output). -/
def corrMatrix (df : List Obs) (sel : List String) (i j : String) : XR :=
  if i ∈ sel ∧ j ∈ sel then corrCell df i j else .nan

/-- The correlation matrix as the nested-list table the heatmap receives. -/
def correlation_table (df : List Obs) (sel : List String) : List (List XR) :=
  sel.map fun i => sel.map fun j => corrCell df i j

/- ------------------------------------------------------------------ -/
/- Helper lemmas.                                                      -/
/- ------------------------------------------------------------------ -/

lemma XR.sub_num (a b : ℚ) : XR.sub (.num a) (.num b) = .num (a - b) := rfl

lemma XR.mul_num (a b : ℚ) : XR.mul (.num a) (.num b) = .num (a * b) := rfl

lemma XR.add_num (a b : ℚ) : XR.add (.num a) (.num b) = .num (a + b) := rfl

lemma XR.div_num (a b : ℚ) (hb : b ≠ 0) :
    XR.div (.num a) (.num b) = .num (a / b) := by
  simp [XR.div, hb]

/-- The first-to-last return formula when the first close is nonzero. -/
lemma returnPct_eq (data : List Obs) (h : firstCloseQ data ≠ 0) :
    returnPct data =
      .num ((lastCloseQ data - firstCloseQ data) / firstCloseQ data * 100) := by
  unfold returnPct
  rw [XR.sub_num, XR.div_num _ _ h, XR.mul_num]

/-- The first-to-last return formula when the first close is zero: numpy
produces a signed infinity (or nan when the last close is zero too). -/
lemma returnPct_first_zero (data : List Obs) (h : firstCloseQ data = 0) :
    returnPct data =
      if 0 < lastCloseQ data then .pinf
      else if lastCloseQ data < 0 then .ninf
      else .nan := by
  unfold returnPct
  rw [h, XR.sub_num, sub_zero]
  rcases lt_trichotomy 0 (lastCloseQ data) with hl | hl | hl
  · norm_num [XR.div, XR.mul, hl, hl.asymm]
  · rw [← hl]
    norm_num [XR.div, XR.mul]
  · norm_num [XR.div, XR.mul, hl, hl.asymm]

/-- A present symbol appears among the sorted group keys. -/
lemma mem_symsSorted {df : List Obs} {s : String}
    (h : s ∈ df.map (·.symbol)) : s ∈ symsSorted df := by
  unfold symsSorted
  rw [List.mem_insertionSort, List.mem_dedup]
  exact h

/-- Membership survives the final descending sort, and a nonempty row list
means no `KeyError`. -/
lemma sort_desc_ok_mem {α : Type} (col : String) (key : α → XR)
    {rows : List α} {x : α} (hx : x ∈ rows) :
    ∃ out, sort_values_desc col key rows = .ok out ∧ x ∈ out := by
  cases rows with
  | nil => cases hx
  | cons a rest =>
    refine ⟨List.insertionSort (descRel key) (a :: rest), ?_, ?_⟩
    · unfold sort_values_desc
      rw [if_neg (by simp)]
    · rw [List.mem_insertionSort]
      exact hx

/-- The descending sort output of `sort_values_desc` is sorted. -/
lemma sort_desc_ok_sorted {α : Type} (col : String) (key : α → XR)
    {rows out : List α} (h : sort_values_desc col key rows = .ok out) :
    List.Sorted (descRel key) out := by
  unfold sort_values_desc at h
  by_cases he : rows.isEmpty
  · rw [if_pos he] at h
    exact absurd h (by simp)
  · rw [if_neg he] at h
    cases h
    exact List.sorted_insertionSort _ _

/-- The per-group row of a present symbol lands in the mapped group list. -/
lemma groupRow_mem {β : Type} {df : List Obs} {s : String}
    (h : s ∈ df.map (·.symbol)) (f : String → List Obs → β) :
    f s (df.filter fun o => o.symbol == s) ∈
      (groupBy df).map fun g => f g.1 g.2 := by
  unfold groupBy
  rw [List.map_map]
  exact List.mem_map.mpr ⟨s, mem_symsSorted h, rfl⟩

/-- `calculate_metrics` succeeds on a table containing symbol `s` and its
output contains the row of `s`'s group. -/
lemma metrics_ok_mem {df : List Obs} {s : String}
    (h : s ∈ df.map (·.symbol)) :
    ∃ rows, calculate_metrics df = .ok rows ∧
      metricsRow s (df.filter fun o => o.symbol == s) ∈ rows :=
  sort_desc_ok_mem _ _ (groupRow_mem h metricsRow)

/-- `calculate_volatility` succeeds on a table containing symbol `s` and
its output contains the row of `s`'s group. -/
lemma volatility_ok_mem {df : List Obs} {s : String}
    (h : s ∈ df.map (·.symbol)) :
    ∃ rows, calculate_volatility df = .ok rows ∧
      volRow s (df.filter fun o => o.symbol == s) ∈ rows :=
  sort_desc_ok_mem _ _ (groupRow_mem h volRow)

/-- The per-step function of `pct_change` (`c_t / c_(t-1) - 1`) agrees
with the spec's difference-quotient form `(c_t - c_(t-1)) / c_(t-1)`
under IEEE semantics, including a zero previous close. -/
lemma pctStep_eq_specStep :
    (fun p x => XR.sub (XR.div (.num x) (.num p)) (.num 1)) =
      fun p x : ℚ => XR.div (XR.sub (.num x) (.num p)) (.num p) := by
  funext p x
  by_cases hp : p = 0
  · subst hp
    rw [XR.sub_num, sub_zero]
    rcases lt_trichotomy 0 x with hx | hx | hx
    · norm_num [XR.div, XR.sub, hx, hx.asymm]
    · rw [← hx]
      norm_num [XR.div, XR.sub]
    · norm_num [XR.div, XR.sub, hx, hx.asymm]
  · rw [XR.sub_num, XR.div_num _ _ hp, XR.div_num _ _ hp, XR.sub_num]
    rw [sub_div, div_self hp]

/-- Dropping a leading nan does not change the skipna sample variance. -/
lemma sampleVarXR_nan_cons (xs : List XR) :
    sampleVarXR (.nan :: xs) = sampleVarXR xs := by
  unfold sampleVarXR
  congr 1

/-- The skipna variance of the code's `pct_change` series equals the
skipna variance of the spec's return series (the leading nan the code
carries is skipped). -/
lemma sampleVarXR_pctChange (l : List ℚ) :
    sampleVarXR (pctChange l) = sampleVarXR (specDailyReturns l) := by
  cases l with
  | nil => rfl
  | cons c rest =>
    show sampleVarXR (.nan :: _) = _
    rw [sampleVarXR_nan_cons]
    unfold specDailyReturns
    rw [pctStep_eq_specStep]
    rfl

/-- A return series over at most one observation is empty. -/
lemma specDailyReturns_short {l : List ℚ} (h : l.length ≤ 1) :
    specDailyReturns l = [] := by
  cases l with
  | nil => rfl
  | cons c rest =>
    cases rest with
    | nil => rfl
    | cons a as => simp at h

/-- The filtered length, sortedness and membership bookkeeping for a
symbol's group. -/
lemma sortByDate_length (l : List Obs) : (sortByDate l).length = l.length :=
  (List.perm_insertionSort _ _).length_eq

lemma mem_sortByDate {l : List Obs} {o : Obs} :
    o ∈ sortByDate l ↔ o ∈ l := List.mem_insertionSort obsDateRel

/-- C3: for every symbol with at least 2 observations and a nonzero first
close (after sorting its group by ascending date), the metrics output
contains that symbol's row and its `returnPct` is exactly
`(lastClose - firstClose) / firstClose * 100`. -/
theorem C3_returnPct_formula (df : List Obs) (s : String)
    (h : s ∈ df.map (·.symbol))
    (h2 : 2 ≤ (df.filter fun o => o.symbol == s).length)
    (h0 : firstCloseQ (sortByDate (df.filter fun o => o.symbol == s)) ≠ 0) :
    ∃ rows, calculate_metrics df = .ok rows ∧
      ∃ r ∈ rows, r.symbol = s ∧
        r.returnPct =
          .num ((lastCloseQ (sortByDate (df.filter fun o => o.symbol == s)) -
              firstCloseQ (sortByDate (df.filter fun o => o.symbol == s))) /
            firstCloseQ (sortByDate (df.filter fun o => o.symbol == s)) * 100) := by
  obtain ⟨rows, hok, hmem⟩ := metrics_ok_mem h
  exact ⟨rows, hok, metricsRow s _, hmem, rfl, returnPct_eq _ h0⟩

/-- Witness for C3 at a concrete two-observation table. -/
theorem C3_returnPct_formula_witness :
    ∃ rows,
      calculate_metrics
          [⟨"A", ⟨2024, 1, 1⟩, 100, 7⟩, ⟨"A", ⟨2024, 1, 2⟩, 99, 7⟩] = .ok rows ∧
      ∃ r ∈ rows, r.symbol = "A" ∧
        r.returnPct =
          .num ((lastCloseQ (sortByDate
                (List.filter (fun o => o.symbol == "A")
                  [⟨"A", ⟨2024, 1, 1⟩, 100, 7⟩, ⟨"A", ⟨2024, 1, 2⟩, 99, 7⟩])) -
              firstCloseQ (sortByDate
                (List.filter (fun o => o.symbol == "A")
                  [⟨"A", ⟨2024, 1, 1⟩, 100, 7⟩, ⟨"A", ⟨2024, 1, 2⟩, 99, 7⟩]))) /
            firstCloseQ (sortByDate
              (List.filter (fun o => o.symbol == "A")
                [⟨"A", ⟨2024, 1, 1⟩, 100, 7⟩, ⟨"A", ⟨2024, 1, 2⟩, 99, 7⟩])) * 100) :=
  C3_returnPct_formula
    [⟨"A", ⟨2024, 1, 1⟩, 100, 7⟩, ⟨"A", ⟨2024, 1, 2⟩, 99, 7⟩] "A"
    (by decide) (by decide) (by decide)

/-- C4 fails on the code: a symbol whose first close is 0 and whose last
close is positive gets `returnPct = +inf` (numpy division of a positive
float by zero), not a not-a-number sentinel, and `+inf` sorts FIRST in
the descending output, not last.  Concretely, with A: 0 → 110 and
B: 100 → 110, A's row carries `+inf` and heads the output. -/
theorem C4_zero_first_close_counterexample :
    calculate_metrics
        [⟨"A", ⟨2024, 1, 1⟩, 0, 1⟩, ⟨"A", ⟨2024, 1, 2⟩, 110, 1⟩,
         ⟨"B", ⟨2024, 1, 1⟩, 100, 1⟩, ⟨"B", ⟨2024, 1, 2⟩, 110, 1⟩] =
      .ok [⟨"A", .pinf, 55, 1⟩, ⟨"B", .num 10, 105, 1⟩] ∧
    XR.pinf ≠ XR.nan := by
  exact ⟨by with_unfolding_all rfl, by decide⟩

/-- C4 amended: a symbol whose first (earliest-dated) close is 0 does not
crash the metrics calculator, but its `returnPct` is a signed infinity
when the last close is nonzero (`+inf` when positive, which sorts first
in the descending output) and nan only when the last close is 0 too. -/
theorem C4_zero_first_close_amended (df : List Obs) (s : String)
    (h : s ∈ df.map (·.symbol))
    (h0 : firstCloseQ (sortByDate (df.filter fun o => o.symbol == s)) = 0) :
    ∃ rows, calculate_metrics df = .ok rows ∧
      ∃ r ∈ rows, r.symbol = s ∧
        r.returnPct =
          (if 0 < lastCloseQ (sortByDate (df.filter fun o => o.symbol == s))
           then .pinf
           else if lastCloseQ (sortByDate (df.filter fun o => o.symbol == s)) < 0
           then .ninf
           else .nan) := by
  obtain ⟨rows, hok, hmem⟩ := metrics_ok_mem h
  exact ⟨rows, hok, metricsRow s _, hmem, rfl, returnPct_first_zero _ h0⟩

/-- Witness for the amended C4 at the counterexample table. -/
theorem C4_zero_first_close_amended_witness :
    ∃ rows,
      calculate_metrics
          [⟨"A", ⟨2024, 1, 1⟩, 0, 1⟩, ⟨"A", ⟨2024, 1, 2⟩, 110, 1⟩,
           ⟨"B", ⟨2024, 1, 1⟩, 100, 1⟩, ⟨"B", ⟨2024, 1, 2⟩, 110, 1⟩] = .ok rows ∧
      ∃ r ∈ rows, r.symbol = "A" ∧
        r.returnPct =
          (if 0 < lastCloseQ (sortByDate
              (List.filter (fun o => o.symbol == "A")
                [⟨"A", ⟨2024, 1, 1⟩, 0, 1⟩, ⟨"A", ⟨2024, 1, 2⟩, 110, 1⟩,
                 ⟨"B", ⟨2024, 1, 1⟩, 100, 1⟩, ⟨"B", ⟨2024, 1, 2⟩, 110, 1⟩]))
           then .pinf
           else if lastCloseQ (sortByDate
              (List.filter (fun o => o.symbol == "A")
                [⟨"A", ⟨2024, 1, 1⟩, 0, 1⟩, ⟨"A", ⟨2024, 1, 2⟩, 110, 1⟩,
                 ⟨"B", ⟨2024, 1, 1⟩, 100, 1⟩, ⟨"B", ⟨2024, 1, 2⟩, 110, 1⟩])) < 0
           then .ninf
           else .nan) :=
  C4_zero_first_close_amended
    [⟨"A", ⟨2024, 1, 1⟩, 0, 1⟩, ⟨"A", ⟨2024, 1, 2⟩, 110, 1⟩,
     ⟨"B", ⟨2024, 1, 1⟩, 100, 1⟩, ⟨"B", ⟨2024, 1, 2⟩, 110, 1⟩] "A"
    (by decide) (by decide)

/-- C5: for every symbol present in the table the volatility calculator
succeeds and yields for that symbol the skipna unbiased sample variance
of the spec's day-over-day return series `(c_t - c_(t-1)) / c_(t-1)`
over its date-sorted closes (`volatilitySq` is the square of the code's
`std`; see `sampleVarXR`), and a symbol with fewer than 2 observations
gets nan. -/
theorem C5_volatility_formula (df : List Obs) (s : String)
    (h : s ∈ df.map (·.symbol)) :
    ∃ rows, calculate_volatility df = .ok rows ∧
      ∃ r ∈ rows, r.symbol = s ∧
        r.volatilitySq =
          sampleVarXR (specDailyReturns
            ((sortByDate (df.filter fun o => o.symbol == s)).map (·.close))) ∧
        ((df.filter fun o => o.symbol == s).length < 2 →
          r.volatilitySq = .nan) := by
  obtain ⟨rows, hok, hmem⟩ := volatility_ok_mem h
  refine ⟨rows, hok, volRow s _, hmem, rfl, ?_, ?_⟩
  · exact sampleVarXR_pctChange _
  · intro hlen
    show sampleVarXR (pctChange _) = XR.nan
    rw [sampleVarXR_pctChange, specDailyReturns_short, ]
    · rfl
    · rw [List.length_map, sortByDate_length]
      omega

/-- Witness for C5 at a three-observation symbol with closes 100, 110, 99
(sample variance of the returns 1/10 and -1/10 is 1/50). -/
theorem C5_volatility_formula_witness :
    ∃ rows,
      calculate_volatility
          [⟨"A", ⟨2024, 1, 1⟩, 100, 1⟩, ⟨"A", ⟨2024, 1, 2⟩, 110, 1⟩,
           ⟨"A", ⟨2024, 1, 3⟩, 99, 1⟩] = .ok rows ∧
      ∃ r ∈ rows, r.symbol = "A" ∧
        r.volatilitySq =
          sampleVarXR (specDailyReturns
            ((sortByDate (List.filter (fun o => o.symbol == "A")
                [⟨"A", ⟨2024, 1, 1⟩, 100, 1⟩, ⟨"A", ⟨2024, 1, 2⟩, 110, 1⟩,
                 ⟨"A", ⟨2024, 1, 3⟩, 99, 1⟩])).map (·.close))) ∧
        ((List.filter (fun o => o.symbol == "A")
            ([⟨"A", ⟨2024, 1, 1⟩, 100, 1⟩, ⟨"A", ⟨2024, 1, 2⟩, 110, 1⟩,
              ⟨"A", ⟨2024, 1, 3⟩, 99, 1⟩] : List Obs)).length < 2 →
          r.volatilitySq = .nan) :=
  C5_volatility_formula
    [⟨"A", ⟨2024, 1, 1⟩, 100, 1⟩, ⟨"A", ⟨2024, 1, 2⟩, 110, 1⟩,
     ⟨"A", ⟨2024, 1, 3⟩, 99, 1⟩] "A" (by decide)

/-- The `pct_change` step over two equal nonzero closes is zero. -/
lemma pctStep_self {c : ℚ} (hc : c ≠ 0) :
    XR.sub (XR.div (.num c) (.num c)) (.num 1) = .num 0 := by
  rw [XR.div_num _ _ hc, div_self hc, XR.sub_num, sub_self]

/-- The tail of `pct_change` over a constant nonzero close series is all
zeros. -/
lemma zipWith_pct_const {c : ℚ} (hc : c ≠ 0) :
    ∀ (rest : List ℚ) (prev : ℚ), prev = c → (∀ x ∈ rest, x = c) →
      List.zipWith (fun p x => XR.sub (XR.div (.num x) (.num p)) (.num 1))
        (prev :: rest) rest = List.replicate rest.length (.num 0)
  | [], _, _, _ => rfl
  | a :: as, prev, hp, hall => by
    have ha : a = c := hall a (by simp)
    rw [List.zipWith_cons_cons]
    rw [show XR.sub (XR.div (.num a) (.num prev)) (.num 1) = .num 0 from by
      rw [hp, ha]; exact pctStep_self hc]
    rw [zipWith_pct_const hc as a ha
        (fun x hx => hall x (List.mem_cons_of_mem _ hx)),
      List.length_cons, List.replicate_succ]

/-- Sum of zeros is zero. -/
lemma sumL_replicate_zero : ∀ m : ℕ, XR.sumL (List.replicate m (.num 0)) = .num 0
  | 0 => rfl
  | m + 1 => by
    show XR.add (.num 0) (XR.sumL (List.replicate m (.num 0))) = .num 0
    rw [sumL_replicate_zero m, XR.add_num, add_zero]

/-- The skipna sample variance of a leading nan followed by `m ≥ 2` zeros
is exactly zero. -/
lemma sampleVar_nan_zeros {m : ℕ} (hm : 2 ≤ m) :
    sampleVarXR (.nan :: List.replicate m (.num 0)) = .num 0 := by
  have hfil : (XR.nan :: List.replicate m (.num 0)).filter (fun x => ! XR.isNan x) =
      List.replicate m (.num 0) := by
    have hall : ∀ x ∈ List.replicate m (XR.num 0), (! XR.isNan x) = true := by
      intro x hx
      rw [List.eq_of_mem_replicate hx]
      rfl
    rw [List.filter_cons]
    simp only [XR.isNan, Bool.not_true, if_neg (by simp : ¬(false = true))]
    exact List.filter_eq_self.mpr hall
  have hm0 : ((m : ℚ)) ≠ 0 := Nat.cast_ne_zero.mpr (by omega)
  have hm1 : (((m - 1 : ℕ) : ℚ)) ≠ 0 := Nat.cast_ne_zero.mpr (by omega)
  unfold sampleVarXR
  rw [hfil]
  unfold sampleVarOf
  rw [List.length_replicate, if_neg (by omega), sumL_replicate_zero,
    XR.div_num _ _ hm0, zero_div, List.map_replicate]
  have hzero : XR.mul (XR.sub (.num 0) (.num 0)) (XR.sub (.num 0) (.num 0)) = .num 0 := by
    norm_num [XR.sub, XR.mul]
  rw [hzero, sumL_replicate_zero, XR.div_num _ _ hm1, zero_div]

/-- C6 fails on the code: a symbol with a constant close across all its
dates but only 2 observations has a single daily return, whose `ddof=1`
standard deviation is nan, not 0; and a constant close of 0 gives nan
returns (`0/0`) and hence nan volatility even with 3 observations. -/
theorem C6_constant_close_counterexample :
    calculate_volatility
        [⟨"A", ⟨2024, 1, 1⟩, 100, 1⟩, ⟨"A", ⟨2024, 1, 2⟩, 100, 1⟩] =
      .ok [⟨"A", .nan⟩] ∧
    calculate_volatility
        [⟨"A", ⟨2024, 1, 1⟩, 0, 1⟩, ⟨"A", ⟨2024, 1, 2⟩, 0, 1⟩,
         ⟨"A", ⟨2024, 1, 3⟩, 0, 1⟩] = .ok [⟨"A", .nan⟩] ∧
    XR.nan ≠ .num 0 :=
  ⟨by with_unfolding_all rfl, by with_unfolding_all rfl, by decide⟩

/-- C6 amended: a symbol whose close is the same nonzero constant across
all its dates and which has at least 3 observations (hence at least 2
daily returns) has volatility exactly 0. -/
theorem C6_constant_close_amended (df : List Obs) (s : String) (c : ℚ)
    (h : s ∈ df.map (·.symbol))
    (hconst : ∀ o ∈ df, o.symbol = s → o.close = c)
    (hc : c ≠ 0)
    (h3 : 3 ≤ (df.filter fun o => o.symbol == s).length) :
    ∃ rows, calculate_volatility df = .ok rows ∧
      ∃ r ∈ rows, r.symbol = s ∧ r.volatilitySq = .num 0 := by
  obtain ⟨rows, hok, hmem⟩ := volatility_ok_mem h
  refine ⟨rows, hok, volRow s _, hmem, rfl, ?_⟩
  show sampleVarXR
      (pctChange ((sortByDate (df.filter fun o => o.symbol == s)).map (·.close))) =
    .num 0
  have hallc : ∀ x ∈ (sortByDate (df.filter fun o => o.symbol == s)).map (·.close),
      x = c := by
    intro x hx
    obtain ⟨o, ho, rfl⟩ := List.mem_map.mp hx
    have ho2 := List.mem_filter.mp (mem_sortByDate.mp ho)
    exact hconst o ho2.1 (by simpa using ho2.2)
  have hlen : 3 ≤ ((sortByDate (df.filter fun o => o.symbol == s)).map (·.close)).length := by
    rw [List.length_map, sortByDate_length]
    exact h3
  cases hcl : (sortByDate (df.filter fun o => o.symbol == s)).map (·.close) with
  | nil =>
    rw [hcl] at hlen
    simp at hlen
  | cons c0 rest =>
    rw [hcl] at hallc hlen
    have hc0 : c0 = c := hallc c0 (by simp)
    show sampleVarXR (XR.nan ::
      List.zipWith (fun p x => XR.sub (XR.div (.num x) (.num p)) (.num 1))
        (c0 :: rest) rest) = XR.num 0
    rw [zipWith_pct_const hc rest c0 hc0
      (fun x hx => hallc x (List.mem_cons_of_mem _ hx))]
    apply sampleVar_nan_zeros
    simp only [List.length_cons] at hlen
    omega

/-- Witness for the amended C6 at a constant-100 symbol with 3 dates. -/
theorem C6_constant_close_amended_witness :
    ∃ rows,
      calculate_volatility
          [⟨"A", ⟨2024, 1, 1⟩, 100, 1⟩, ⟨"A", ⟨2024, 1, 2⟩, 100, 1⟩,
           ⟨"A", ⟨2024, 1, 3⟩, 100, 1⟩] = .ok rows ∧
      ∃ r ∈ rows, r.symbol = "A" ∧ r.volatilitySq = .num 0 :=
  C6_constant_close_amended
    [⟨"A", ⟨2024, 1, 1⟩, 100, 1⟩, ⟨"A", ⟨2024, 1, 2⟩, 100, 1⟩,
     ⟨"A", ⟨2024, 1, 3⟩, 100, 1⟩] "A" 100
    (by decide) (by decide) (by decide) (by decide)

/-- C7 fails on the code: a (month, symbol) group with a single observation
whose close is 0 yields `returnPct = 0/0 = nan`, not 0. -/
theorem C7_monthly_counterexample :
    monthlyOut ⟨[⟨"A", ⟨2024, 1, 15⟩, 0, 1⟩], false⟩ =
      [⟨(2024, 1), "A", .nan⟩] ∧
    XR.nan ≠ .num 0 :=
  ⟨by with_unfolding_all rfl, by decide⟩

set_option maxRecDepth 16000 in
/-- C7 amended: monthly performance has exactly one row per distinct
(calendar month, symbol) pair present in the data; each row's `returnPct`
is the first-to-last formula over the group's date-sorted observations; a
single-observation group yields `returnPct = 0` provided its close is
nonzero (a zero close gives nan); and the spec's concrete example holds:
closes Jan-01:100, Jan-31:120, Feb-01:120, Feb-28:90 give monthly returns
Jan: 20.0 and Feb: -25.0. -/
theorem C7_monthly_amended :
    (∀ t : Table,
      ((monthlyOut t).map fun r => (r.month, r.symbol)).Nodup ∧
      (∀ mo s, ((mo, s) ∈ (monthlyOut t).map fun r => (r.month, r.symbol)) ↔
        ∃ o ∈ t.rows, monthOf o.date = mo ∧ o.symbol = s) ∧
      (∀ r ∈ monthlyOut t,
        r.returnPct = returnPct (sortByDate (monthGroup t.rows (r.month, r.symbol)))) ∧
      (∀ r ∈ monthlyOut t, ∀ o : Obs,
        monthGroup t.rows (r.month, r.symbol) = [o] → o.close ≠ 0 →
          r.returnPct = .num 0)) ∧
    monthlyOut ⟨[⟨"A", ⟨2024, 1, 1⟩, 100, 1⟩, ⟨"A", ⟨2024, 1, 31⟩, 120, 1⟩,
        ⟨"A", ⟨2024, 2, 1⟩, 120, 1⟩, ⟨"A", ⟨2024, 2, 28⟩, 90, 1⟩], false⟩ =
      [⟨(2024, 1), "A", .num 20⟩, ⟨(2024, 2), "A", .num (-25)⟩] := by
  constructor
  · intro t
    have hout : monthlyOut t = (mkeys t.rows).map fun k =>
        ({ month := k.1, symbol := k.2,
           returnPct := returnPct (sortByDate (monthGroup t.rows k)) } :
          MonthlyPerformance) := rfl
    have hkeys : (monthlyOut t).map (fun r => (r.month, r.symbol)) = mkeys t.rows := by
      rw [hout, List.map_map]
      have hid : ((fun r : MonthlyPerformance => (r.month, r.symbol)) ∘
          fun k : (Nat × Nat) × String =>
            ({ month := k.1, symbol := k.2,
               returnPct := returnPct (sortByDate (monthGroup t.rows k)) } :
              MonthlyPerformance)) = id := by
        funext k
        rfl
      rw [hid, List.map_id]
    have hformula : ∀ r ∈ monthlyOut t,
        r.returnPct = returnPct (sortByDate (monthGroup t.rows (r.month, r.symbol))) := by
      rw [hout]
      intro r hr
      obtain ⟨k, hk, rfl⟩ := List.mem_map.mp hr
      rfl
    refine ⟨?_, ?_, hformula, ?_⟩
    · rw [hkeys]
      exact ((List.perm_insertionSort mkeyRel _).nodup_iff).mpr (List.nodup_dedup _)
    · intro mo s
      rw [hkeys]
      unfold mkeys
      rw [List.mem_insertionSort, List.mem_dedup, List.mem_map]
      simp [monthKey, monthOf, Prod.ext_iff]
    · intro r hr o hgo hco
      rw [hformula r hr, hgo]
      rw [returnPct_eq (sortByDate [o])
        (show firstCloseQ (sortByDate [o]) ≠ 0 from hco)]
      show XR.num ((o.close - o.close) / o.close * 100) = XR.num 0
      rw [sub_self, zero_div, zero_mul]
  · with_unfolding_all rfl

set_option maxRecDepth 16000 in
/-- Witness for the amended C7: the row of the single-observation group
(2024-03, A) has the first-to-last formula value over its group. -/
theorem C7_monthly_amended_witness :
    (⟨(2024, 3), "A", XR.num 0⟩ : MonthlyPerformance).returnPct =
      returnPct (sortByDate
        (monthGroup [⟨"A", ⟨2024, 3, 1⟩, 5, 1⟩] ((2024, 3), "A"))) :=
  (C7_monthly_amended.1 ⟨[⟨"A", ⟨2024, 3, 1⟩, 5, 1⟩], false⟩).2.2.1
    ⟨(2024, 3), "A", XR.num 0⟩ (by with_unfolding_all decide)

/-- Swapping the two symbols swaps the aligned pairs. -/
lemma alignedPairs_swap (df : List Obs) (i j : String) :
    alignedPairs df j i = (alignedPairs df i j).map Prod.swap := by
  unfold alignedPairs
  rw [List.map_filterMap]
  apply List.filterMap_congr
  intro d _
  cases pivotCell df d i <;> cases pivotCell df d j <;> rfl

/-- The Pearson statistic is invariant under swapping the pair
components. -/
lemma corrStat_swap (ps : List (ℚ × ℚ)) :
    corrStat (ps.map Prod.swap) = corrStat ps := by
  have hfst : (ps.map Prod.swap).map Prod.fst = ps.map Prod.snd := by
    rw [List.map_map]
    rfl
  have hsnd : (ps.map Prod.swap).map Prod.snd = ps.map Prod.fst := by
    rw [List.map_map]
    rfl
  have hm1 : meanFst (ps.map Prod.swap) = meanSnd ps := by
    unfold meanFst meanSnd
    rw [hfst]
  have hm2 : meanSnd (ps.map Prod.swap) = meanFst ps := by
    unfold meanSnd meanFst
    rw [hsnd]
  have hsxx : sxxOf (ps.map Prod.swap) = syyOf ps := by
    unfold sxxOf syyOf
    rw [hm1, List.map_map]
    rfl
  have hsyy : syyOf (ps.map Prod.swap) = sxxOf ps := by
    unfold syyOf sxxOf
    rw [hm2, List.map_map]
    rfl
  have hsxy : sxyOf (ps.map Prod.swap) = sxyOf ps := by
    unfold sxyOf
    rw [hm1, hm2, List.map_map]
    exact congrArg List.sum (List.map_congr_left fun p _ => mul_comm _ _)
  unfold corrStat
  rw [List.length_map, hsxx, hsyy, hsxy, mul_comm (syyOf ps) (sxxOf ps)]

/-- The correlation cell is symmetric in its two symbols. -/
lemma corrCell_symm (df : List Obs) (i j : String) :
    corrCell df i j = corrCell df j i := by
  unfold corrCell
  rw [alignedPairs_swap df i j, corrStat_swap]

/-- Self-aligned pairs pair each close with itself. -/
lemma alignedPairs_diag (df : List Obs) (i : String) :
    ∀ p ∈ alignedPairs df i i, p.1 = p.2 := by
  intro p hp
  obtain ⟨d, hd, hmatch⟩ := List.mem_filterMap.mp hp
  cases h : pivotCell df d i with
  | num a =>
    rw [h] at hmatch
    injection hmatch with h2
    rw [← h2]
  | pinf =>
    rw [h] at hmatch
    exact Option.noConfusion hmatch
  | ninf =>
    rw [h] at hmatch
    exact Option.noConfusion hmatch
  | nan =>
    rw [h] at hmatch
    exact Option.noConfusion hmatch

/-- The Pearson statistic of a self-aligned series with nonzero centered
sum of squares is exactly 1. -/
lemma corrStat_diag {ps : List (ℚ × ℚ)} (hdiag : ∀ p ∈ ps, p.1 = p.2)
    (hsxx : sxxOf ps ≠ 0) : corrStat ps = .num 1 := by
  have hmean : meanSnd ps = meanFst ps := by
    unfold meanFst meanSnd
    rw [List.map_congr_left fun p hp => (hdiag p hp).symm]
  have hsyy : syyOf ps = sxxOf ps := by
    unfold syyOf sxxOf
    rw [hmean]
    exact congrArg List.sum (List.map_congr_left fun p hp => by rw [hdiag p hp])
  have hsxy : sxyOf ps = sxxOf ps := by
    unfold sxyOf sxxOf
    rw [hmean]
    exact congrArg List.sum (List.map_congr_left fun p hp => by rw [hdiag p hp])
  have hnn : 0 ≤ sxxOf ps := by
    unfold sxxOf
    apply List.sum_nonneg
    intro x hx
    obtain ⟨p, hp, rfl⟩ := List.mem_map.mp hx
    exact mul_self_nonneg _
  have hpos : 0 < sxxOf ps := lt_of_le_of_ne hnn (Ne.symm hsxx)
  have hne : ps.length ≠ 0 := by
    intro h0
    apply hsxx
    unfold sxxOf meanFst qMean
    rw [List.length_eq_zero.mp h0]
    rfl
  unfold corrStat
  rw [if_neg hne, hsxy, hsyy, if_neg (mul_ne_zero hsxx hsxx), abs_of_pos hpos,
    div_self (mul_ne_zero hsxx hsxx)]

/-- C8 fails on the code: pandas `DataFrame.corr` does not force the
diagonal to 1; a selected symbol whose close series has zero variance
(here: constant 5 on two dates) gets nan on its own diagonal cell. -/
theorem C8_correlation_counterexample :
    corrMatrix [⟨"A", ⟨2024, 1, 1⟩, 5, 1⟩, ⟨"A", ⟨2024, 1, 2⟩, 5, 1⟩]
        ["A"] "A" "A" = .nan ∧
    XR.nan ≠ .num 1 :=
  ⟨by with_unfolding_all rfl, by decide⟩

/-- C8 amended: the correlation matrix is always symmetric, and a selected
symbol's diagonal cell is exactly 1.0 whenever its aligned close series
has a nonzero centered sum of squares (i.e. at least two observations,
not all equal); otherwise the diagonal cell is nan. -/
theorem C8_correlation_amended :
    (∀ (df : List Obs) (sel : List String) (i j : String),
      corrMatrix df sel i j = corrMatrix df sel j i) ∧
    (∀ (df : List Obs) (sel : List String) (i : String), i ∈ sel →
      sxxOf (alignedPairs df i i) ≠ 0 → corrMatrix df sel i i = .num 1) := by
  constructor
  · intro df sel i j
    unfold corrMatrix
    by_cases hi : i ∈ sel <;> by_cases hj : j ∈ sel <;>
      simp [hi, hj, corrCell_symm df i j]
  · intro df sel i hi hs
    unfold corrMatrix
    rw [if_pos ⟨hi, hi⟩]
    exact corrStat_diag (alignedPairs_diag df i) hs

set_option maxRecDepth 16000 in
/-- Witness for the amended C8 at a two-observation varying symbol. -/
theorem C8_correlation_amended_witness :
    sxxOf (alignedPairs
        [⟨"B", ⟨2024, 1, 1⟩, 1, 1⟩, ⟨"B", ⟨2024, 1, 2⟩, 2, 1⟩] "B" "B") ≠ 0 ∧
    corrMatrix [⟨"B", ⟨2024, 1, 1⟩, 1, 1⟩, ⟨"B", ⟨2024, 1, 2⟩, 2, 1⟩]
        ["B"] "B" "B" = .num 1 :=
  ⟨by with_unfolding_all decide,
   C8_correlation_amended.2
     [⟨"B", ⟨2024, 1, 1⟩, 1, 1⟩, ⟨"B", ⟨2024, 1, 2⟩, 2, 1⟩] ["B"] "B"
     (by decide) (by with_unfolding_all decide)⟩

/-- A list sorted by `descLE` has non-increasing finite values: the nan
entries (sorted last) are dropped and the remaining comparisons are plain
`≥` on `ℚ`. -/
lemma pairwise_numsOf {l : List XR}
    (h : l.Pairwise fun a b => XR.descLE a b = true) :
    (numsOf l).Pairwise fun a b : ℚ => b ≤ a := by
  induction l with
  | nil => simp [numsOf]
  | cons x xs ih =>
    rcases List.pairwise_cons.mp h with ⟨hx, hxs⟩
    cases x with
    | num q =>
      have hnums : numsOf (XR.num q :: xs) = q :: numsOf xs := by
        simp [numsOf, List.filterMap_cons]
      rw [hnums]
      refine List.pairwise_cons.mpr ⟨?_, ih hxs⟩
      intro b hb
      obtain ⟨a, ha, hab⟩ := List.mem_filterMap.mp hb
      have hd := hx a ha
      cases a with
      | num qa =>
        injection hab with h2
        rw [← h2]
        simpa [XR.descLE] using hd
      | pinf => exact Option.noConfusion hab
      | ninf => exact Option.noConfusion hab
      | nan => exact Option.noConfusion hab
    | pinf =>
      have hnums : numsOf (XR.pinf :: xs) = numsOf xs := by
        simp [numsOf, List.filterMap_cons]
      rw [hnums]
      exact ih hxs
    | ninf =>
      have hnums : numsOf (XR.ninf :: xs) = numsOf xs := by
        simp [numsOf, List.filterMap_cons]
      rw [hnums]
      exact ih hxs
    | nan =>
      have hnums : numsOf (XR.nan :: xs) = numsOf xs := by
        simp [numsOf, List.filterMap_cons]
      rw [hnums]
      exact ih hxs

/-- C9: whenever the metrics and volatility calculators succeed, their
output rows are in non-increasing order of the ranking metric over the
rows whose metric is a defined (finite) number.  (`+inf` rows sort before
all finite rows and nan rows sort last, so the finite subsequence is
non-increasing; descending order of `volatilitySq` is descending order of
the code's `std` since squaring is strictly monotone on `[0, ∞)`.) -/
theorem C9_outputs_sorted_desc (df : List Obs)
    (rowsM : List SymbolMetrics) (rowsV : List VolatilityMetric)
    (hm : calculate_metrics df = .ok rowsM)
    (hv : calculate_volatility df = .ok rowsV) :
    (numsOf (rowsM.map (·.returnPct))).Pairwise (fun a b => b ≤ a) ∧
    (numsOf (rowsV.map (·.volatilitySq))).Pairwise (fun a b => b ≤ a) := by
  constructor
  · exact pairwise_numsOf (List.pairwise_map.mpr (sort_desc_ok_sorted _ _ hm))
  · exact pairwise_numsOf (List.pairwise_map.mpr (sort_desc_ok_sorted _ _ hv))

/-- Witness for C9 at a two-symbol table (A: +10%, B: -10%; both get nan
volatility from single returns). -/
theorem C9_outputs_sorted_desc_witness :
    (numsOf (([⟨"A", .num 10, 105, 1⟩, ⟨"B", .num (-10), 95, 1⟩] :
        List SymbolMetrics).map (·.returnPct))).Pairwise (fun a b => b ≤ a) ∧
    (numsOf (([⟨"A", .nan⟩, ⟨"B", .nan⟩] :
        List VolatilityMetric).map (·.volatilitySq))).Pairwise (fun a b => b ≤ a) :=
  C9_outputs_sorted_desc
    [⟨"A", ⟨2024, 1, 1⟩, 100, 1⟩, ⟨"A", ⟨2024, 1, 2⟩, 110, 1⟩,
     ⟨"B", ⟨2024, 1, 1⟩, 100, 1⟩, ⟨"B", ⟨2024, 1, 2⟩, 90, 1⟩]
    [⟨"A", .num 10, 105, 1⟩, ⟨"B", .num (-10), 95, 1⟩]
    [⟨"A", .nan⟩, ⟨"B", .nan⟩]
    (by with_unfolding_all rfl) (by with_unfolding_all rfl)

/-- C10 fails on the code: `calculate_monthly_performance` assigns
`df['Month'] = df['Date'].dt.to_period('M').astype(str)` on the caller's
DataFrame, adding a `Month` column in place, so the table's columns after
the call differ from before. -/
theorem C10_mutation_counterexample :
    (calculate_monthly_performance ⟨[⟨"A", ⟨2024, 1, 1⟩, 100, 1⟩], false⟩).1 ≠
      ⟨[⟨"A", ⟨2024, 1, 1⟩, 100, 1⟩], false⟩ := by
  decide

/-- C10 amended: no calculator changes the rows of the caller's table, and
the per-symbol metrics, volatility, cumulative-return and correlation
calculators are pure functions of it (they operate on fresh frames:
`sort_values`, `.copy()` and `pivot` allocate new objects); the one
mutation is `calculate_monthly_performance`, which adds the derived
`Month` column to the caller's table while leaving rows and all existing
columns intact. -/
theorem C10_mutation_amended (t : Table) :
    (calculate_monthly_performance t).1.rows = t.rows ∧
    (calculate_monthly_performance t).1.hasMonth = true :=
  ⟨rfl, rfl⟩

/-- C1 fails on the code (code bug): `pct_change` leaves the first row's
daily return nan and `(1 + x).cumprod()` (skipna) keeps that nan, so the
cumulative-return value at a symbol's first date is nan, not the
spec's exact 1.0 baseline (the chart even labels the axis "1.0 = Start").
For closes [100, 110, 99] the code produces [nan, 1.10, 0.99] where the
claim expects [1.0, 1.10, 0.99]; the later points do carry the running
product of `(1 + dailyReturn)` over the defined returns. -/
theorem C1_cumulative_first_point_nan :
    (calculate_cumulative_returns
        [⟨"A", ⟨2024, 1, 1⟩, 100, 1⟩, ⟨"A", ⟨2024, 1, 2⟩, 110, 1⟩,
         ⟨"A", ⟨2024, 1, 3⟩, 99, 1⟩] ["A"]).map (·.cumulativeReturn) =
      [XR.nan, XR.num (11 / 10), XR.num (99 / 100)] ∧
    (calculate_cumulative_returns
        [⟨"A", ⟨2024, 1, 1⟩, 100, 1⟩, ⟨"A", ⟨2024, 1, 2⟩, 110, 1⟩,
         ⟨"A", ⟨2024, 1, 3⟩, 99, 1⟩] ["A"]).map (·.dailyReturn) =
      [XR.nan, XR.num (1 / 10), XR.num (-(1 / 10))] ∧
    XR.nan ≠ XR.num 1 :=
  ⟨by with_unfolding_all rfl, by with_unfolding_all rfl, by decide⟩

/-- C2 fails on the code (code bug): on a zero-row table the per-symbol
metrics and volatility calculators crash — their group loops produce an
empty row list, `pd.DataFrame([])` then has no columns, and
`sort_values` raises `KeyError` — while cumulative returns, monthly
performance and the correlation pivot do return empty results. -/
theorem C2_empty_table_eval :
    calculate_metrics ([] : List Obs) = .error "KeyError: Return (%)" ∧
    calculate_volatility ([] : List Obs) = .error "KeyError: Volatility" ∧
    calculate_cumulative_returns [] [] = [] ∧
    calculate_cumulative_returns [] ["A"] = [] ∧
    (calculate_monthly_performance ⟨[], false⟩).2 = [] ∧
    correlation_table [] [] = [] :=
  ⟨by with_unfolding_all rfl, by with_unfolding_all rfl, rfl, rfl, rfl, rfl⟩
